import Mathlib

/-! Verification of goparse, a command-line adapter around `go/parser` with tracing forced on

Shallow embedding of `src/main.go`.

* `init` (lines 36-55) computes the package-level variable `mode` from the four
  boolean flags that `flag.Parse` delivers.
* `main` (lines 57-82) resolves the input source from the positional arguments,
  performs the single delegated `parser.ParseFile` call and terminates.

Everything the program imports from the Go standard library is a parameter of the
embedding: the `parser.Mode` constants (`ParserModes`), and `os.Args[0]`, `path.Base`,
`os.Open` and `parser.ParseFile` (`World`).  `goParserModes` records the values the
constants have in `go/parser`.
-/

namespace Goparse

/-! ## The configuration bitmask -/

/-- Go's `parser.Mode` (`type Mode uint`): a set of flag bits.  Only `|` is applied to
it by the program, which cannot overflow, so the bits are kept in a `Nat`. -/
abbrev Mode := Nat

/-- The five `parser.Mode` constants that `src/main.go` refers to.  They are declared in
the imported package `go/parser`, not in this repository. -/
structure ParserModes where
  ImportsOnly : Mode
  ParseComments : Mode
  Trace : Mode
  DeclarationErrors : Mode
  AllErrors : Mode
  deriving DecidableEq, Repr

/-- The values of the constants in `go/parser` (`PackageClauseOnly = 1 << iota`, then
`ImportsOnly`, `ParseComments`, `Trace`, `DeclarationErrors`, `SpuriousErrors`, and
`AllErrors = SpuriousErrors`). -/
def goParserModes : ParserModes :=
  { ImportsOnly := 2, ParseComments := 4, Trace := 8, DeclarationErrors := 16, AllErrors := 32 }

/-- A mode constant that occupies exactly one bit. -/
def SingleBit (m : Mode) : Prop := ∃ k : Nat, m = 2 ^ k

/-- The five constants occupy pairwise distinct single bits. -/
def ParserModes.Independent (c : ParserModes) : Prop :=
  SingleBit c.Trace ∧ SingleBit c.ImportsOnly ∧ SingleBit c.ParseComments ∧
  SingleBit c.DeclarationErrors ∧ SingleBit c.AllErrors ∧
  [c.Trace, c.ImportsOnly, c.ParseComments, c.DeclarationErrors, c.AllErrors].Nodup

/-- The test `mode&bit != 0` by which a `parser.Mode` bit is read. -/
def hasBit (mode bit : Mode) : Prop := mode &&& bit ≠ 0

instance (mode bit : Mode) : Decidable (hasBit mode bit) :=
  inferInstanceAs (Decidable (mode &&& bit ≠ 0))

/-- The values of the four boolean flags after `flag.Parse()`; each defaults to
`false` (second argument of the `flag.Bool` calls). -/
structure Flags where
  importsOnly : Bool := false
  parseComments : Bool := false
  declarationErrors : Bool := false
  allErrors : Bool := false
  deriving DecidableEq, Repr

/-- The function `init` of `src/main.go`: the value it leaves in the package variable
`mode`, given the parsed flag values. -/
def init (c : ParserModes) (f : Flags) : Mode :=
  let mode := c.Trace
  let mode := if f.importsOnly then mode ||| c.ImportsOnly else mode
  let mode := if f.parseComments then mode ||| c.ParseComments else mode
  let mode := if f.declarationErrors then mode ||| c.DeclarationErrors else mode
  let mode := if f.allErrors then mode ||| c.AllErrors else mode
  mode

/-- Union of the five constants: every bit `init` can set. -/
def ParserModes.allBits (c : ParserModes) : Mode :=
  c.Trace ||| c.ImportsOnly ||| c.ParseComments ||| c.DeclarationErrors ||| c.AllErrors

/-! ## The process model -/

/-- A non-nil Go `error` value; a nil `error` is `none : Option Error`. -/
abbrev Error := String

/-- An open `*os.File`, identified by its descriptor. -/
abbrev Handle := Nat

/-- The values the variable `src io.Reader` of `main` can hold: `os.Stdin`, or the file
returned by a successful `os.Open`. -/
inductive Reader where
  | stdin
  | file (f : Handle)
  deriving DecidableEq, Repr

/-- Result of `os.Open(name)`: an open file with a nil error, or a non-nil error. -/
inductive OpenResult where
  | ok (f : Handle)
  | err (e : Error)
  deriving DecidableEq, Repr

/-- Go's `*token.FileSet`: the files registered so far. -/
structure FileSet where
  files : List String
  deriving DecidableEq, Repr

/-- The call `token.NewFileSet()`: a fresh, empty file set. -/
def token.NewFileSet : FileSet := ⟨[]⟩

/-- What one call of `parser.ParseFile` does: the returned pair `(f, err)`, where `f`
may be non-nil (a partial tree) also when `err` is non-nil, and the trace text that the
library printed on standard output during the call. -/
structure ParseResult (Ast : Type) where
  f : Option Ast
  err : Option Error
  out : String

/-- The environment of one run, as far as `main` consults it: `os.Args[0]`, and the
behaviour of the library functions `path.Base`, `os.Open` and `parser.ParseFile`. -/
structure World (Ast : Type) where
  arg0 : String
  pathBase : String → String
  osOpen : String → OpenResult
  parseFile : FileSet → String → Reader → Mode → ParseResult Ast

/-- An effect performed by the process. -/
inductive Event (Ast : Type) where
  /-- The call `os.Open(name)` was made and returned `res`. -/
  | osOpen (name : String) (res : OpenResult)
  /-- The method `Close` was called on an open file. -/
  | close (f : Handle)
  /-- The call `fmt.Printf` wrote `s` to standard output. -/
  | printf (s : String)
  /-- The call `parser.ParseFile(fset, filename, src, mode)` was made and behaved as `res`. -/
  | parseFile (fset : FileSet) (filename : String) (src : Reader) (mode : Mode)
      (res : ParseResult Ast)
  /-- The call `log.Fatal(err)` wrote `err` to the standard logger (standard error). -/
  | logFatal (err : Error)

/-- Where a computation stands after running on a log of effects: it returned a value, or
the process was terminated by `os.Exit(code)`. -/
inductive Step (Ast α : Type) where
  | ret (a : α) (log : List (Event Ast))
  | exit (code : Nat) (log : List (Event Ast))

/-- A computation of the process: it extends the log of effects performed so far. -/
def Proc (Ast α : Type) : Type := List (Event Ast) → Step Ast α

/-- Return a value without effect. -/
def Proc.pure {Ast α : Type} (a : α) : Proc Ast α := fun log => Step.ret a log

/-- Sequencing: what follows a call of `os.Exit` is never run. -/
def Proc.bind {Ast α β : Type} (x : Proc Ast α) (k : α → Proc Ast β) : Proc Ast β :=
  fun log =>
    match x log with
    | Step.ret a log1 => k a log1
    | Step.exit code log1 => Step.exit code log1

instance (Ast : Type) : Monad (Proc Ast) where
  pure := Proc.pure
  bind := Proc.bind

/-- The call `os.Exit(code)`: the process terminates at once with that status. -/
def osExit {Ast α : Type} (code : Nat) : Proc Ast α := fun log => Step.exit code log

/-- The call `os.Open(name)`. -/
def osOpen {Ast : Type} (w : World Ast) (name : String) : Proc Ast OpenResult :=
  fun log => Step.ret (w.osOpen name) (log ++ [Event.osOpen name (w.osOpen name)])

/-- The call `fmt.Printf` with the already formatted text `s`. -/
def fmtPrintf {Ast : Type} (s : String) : Proc Ast Unit :=
  fun log => Step.ret () (log ++ [Event.printf s])

/-- The call `log.Fatal(err)`: print to the standard logger, then `os.Exit(1)`. -/
def logFatal {Ast α : Type} (err : Error) : Proc Ast α :=
  fun log => Step.exit 1 (log ++ [Event.logFatal err])

/-- The call `parser.ParseFile(fset, filename, src, mode)`. -/
def parserParseFile {Ast : Type} (w : World Ast) (fset : FileSet) (filename : String)
    (src : Reader) (mode : Mode) : Proc Ast (ParseResult Ast) :=
  fun log =>
    Step.ret (w.parseFile fset filename src mode)
      (log ++ [Event.parseFile fset filename src mode (w.parseFile fset filename src mode)])

/-- The function `main` of `src/main.go`; `mode` is the package variable set by `init`
and `fargs` the value of `flag.Args()`. -/
def main {Ast : Type} (w : World Ast) (mode : Mode) (fargs : List String) : Proc Ast Unit := do
  let (filename, src) ←
    if fargs.length = 0 then
      pure ("-", Reader.stdin)
    else if h : fargs.length = 1 then do
      let filename := fargs[0]
      match ← osOpen w filename with
      | OpenResult.ok f => pure (filename, Reader.file f)
      | OpenResult.err err => logFatal err
    else do
      fmtPrintf ("usage: " ++ w.pathBase w.arg0 ++ " [-h] [options] [file]\n")
      osExit 2
  let fset := token.NewFileSet
  let res ← parserParseFile w fset filename src mode
  match res.err with
  | some err => logFatal err
  | none => pure ()

/-- How a run ended: the effects performed, in order, and the exit status. -/
structure Outcome (Ast : Type) where
  log : List (Event Ast)
  status : Nat

/-- Run a computation as the whole process: returning from `main` is exit status 0. -/
def Proc.run {Ast : Type} (p : Proc Ast Unit) : Outcome Ast :=
  match p [] with
  | Step.ret _ log => ⟨log, 0⟩
  | Step.exit code log => ⟨log, code⟩

/-- One run of the program: `init` sets `mode` from the flags, then `main` runs on the
positional arguments. -/
def goparse {Ast : Type} (c : ParserModes) (w : World Ast) (f : Flags)
    (fargs : List String) : Outcome Ast :=
  (main w (init c f) fargs).run

/-! ## Observations on a log of effects -/

/-- The arguments of one `parser.ParseFile` call. -/
structure ParseCall where
  fset : FileSet
  filename : String
  src : Reader
  mode : Mode
  deriving DecidableEq, Repr

/-- The `parser.ParseFile` calls made, in order. -/
def parseCalls {Ast : Type} : List (Event Ast) → List ParseCall
  | [] => []
  | Event.parseFile fset filename src mode _ :: es => ⟨fset, filename, src, mode⟩ :: parseCalls es
  | _ :: es => parseCalls es

/-- The names passed to `os.Open`, in order. -/
def opened {Ast : Type} : List (Event Ast) → List String
  | [] => []
  | Event.osOpen name _ :: es => name :: opened es
  | _ :: es => opened es

/-- Everything written to standard output: the text of `fmt.Printf` and the trace the
parser printed. -/
def stdoutOf {Ast : Type} : List (Event Ast) → String
  | [] => ""
  | Event.printf s :: es => s ++ stdoutOf es
  | Event.parseFile _ _ _ _ res :: es => res.out ++ stdoutOf es
  | _ :: es => stdoutOf es

/-- The files closed by the program, in order. -/
def closed {Ast : Type} : List (Event Ast) → List Handle
  | [] => []
  | Event.close f :: es => f :: closed es
  | _ :: es => closed es

/-- The files still open after the effects of the log, starting from the files `acc`:
a successful `os.Open` adds its file, `Close` removes it. -/
def openFiles {Ast : Type} : List (Event Ast) → List Handle → List Handle
  | [], acc => acc
  | Event.osOpen _ (OpenResult.ok f) :: es, acc => openFiles es (acc ++ [f])
  | Event.close f :: es, acc => openFiles es (acc.filter (fun g => g != f))
  | _ :: es, acc => openFiles es acc

/-- The results returned by the `parser.ParseFile` calls made, in order. -/
def parseResults {Ast : Type} : List (Event Ast) → List (ParseResult Ast)
  | [] => []
  | Event.parseFile _ _ _ _ res :: es => res :: parseResults es
  | _ :: es => parseResults es

/-- Go's `path.Base`: the last element of a slash-separated path, after removing
trailing slashes; `"."` for the empty path and `"/"` for a path of slashes only. -/
def goPathBase (path : String) : String :=
  if path = "" then "."
  else
    let stripped := path.data.reverse.dropWhile (fun ch => ch == '/')
    let last := stripped.takeWhile (fun ch => ch != '/')
    if last = [] then "/" else String.mk last.reverse

/-- A sample environment: the program was started as `/usr/local/bin/goparse`; the
files `a.go` and `-` exist, no other does; the parser accepts `a.go` and standard
input, and reports a syntax error together with a partial tree for the file `-`. -/
def sampleWorld : World String where
  arg0 := "/usr/local/bin/goparse"
  pathBase := goPathBase
  osOpen := fun name =>
    if name = "a.go" then OpenResult.ok 3
    else if name = "-" then OpenResult.ok 4
    else OpenResult.err ("open " ++ name ++ ": no such file or directory")
  parseFile := fun _ filename src _ =>
    if src = Reader.file 4 then
      ⟨some "partial", some (filename ++ ":1:1: expected 'package'"), "  1:  1: File (\n"⟩
    else ⟨some "file", none, "  1:  1: File (\n"⟩

/-- A second sample environment, equal to `sampleWorld` except that no file exists:
every `os.Open` fails. -/
def emptyDirWorld : World String where
  arg0 := sampleWorld.arg0
  pathBase := sampleWorld.pathBase
  osOpen := fun name => OpenResult.err ("open " ++ name ++ ": no such file or directory")
  parseFile := sampleWorld.parseFile

/-! ## The outcome of the delegated call -/

/-- The log and status after the delegated call (lines 77-82), given the effects
`pre` performed before it. -/
def afterParse {Ast : Type} (w : World Ast) (pre : List (Event Ast)) (filename : String)
    (src : Reader) (mode : Mode) : Outcome Ast :=
  let res := w.parseFile token.NewFileSet filename src mode
  match res.err with
  | some err => ⟨pre ++ [Event.parseFile token.NewFileSet filename src mode res,
      Event.logFatal err], 1⟩
  | none => ⟨pre ++ [Event.parseFile token.NewFileSet filename src mode res], 0⟩

/-! ## Bit-level lemmas -/

theorem hasBit_two_pow (m k : Nat) : hasBit m (2 ^ k) ↔ m.testBit k = true := by
  unfold hasBit
  constructor
  · intro h
    by_contra hk
    apply h
    apply Nat.eq_of_testBit_eq
    intro i
    by_cases hi : k = i
    · subst hi; simp [hk]
    · simp [Nat.testBit_two_pow, hi]
  · intro h h0
    have := congrArg (fun x => Nat.testBit x k) h0
    simp [Nat.testBit_two_pow, h] at this

theorem goParserModes_independent : goParserModes.Independent :=
  ⟨⟨3, rfl⟩, ⟨1, rfl⟩, ⟨2, rfl⟩, ⟨4, rfl⟩, ⟨5, rfl⟩, by decide⟩

theorem init_eq_or (c : ParserModes) (f : Flags) :
    init c f = c.Trace ||| (if f.importsOnly then c.ImportsOnly else 0)
      ||| (if f.parseComments then c.ParseComments else 0)
      ||| (if f.declarationErrors then c.DeclarationErrors else 0)
      ||| (if f.allErrors then c.AllErrors else 0) := by
  rcases f with ⟨a, b, d, e⟩
  cases a <;> cases b <;> cases d <;> cases e <;> simp [init]

theorem init_testBit (c : ParserModes) (f : Flags) (i : Nat) :
    (init c f).testBit i =
      (c.Trace.testBit i || (f.importsOnly && c.ImportsOnly.testBit i)
        || (f.parseComments && c.ParseComments.testBit i)
        || (f.declarationErrors && c.DeclarationErrors.testBit i)
        || (f.allErrors && c.AllErrors.testBit i)) := by
  rcases f with ⟨a, b, d, e⟩
  cases a <;> cases b <;> cases d <;> cases e <;> simp [init]

/-- Under independence of the constants, each flag bit of the computed mode is set
exactly when its flag is true, and the trace bit is set. -/
theorem init_hasBit (c : ParserModes) (hc : c.Independent) (f : Flags) :
    hasBit (init c f) c.Trace ∧
    (hasBit (init c f) c.ImportsOnly ↔ f.importsOnly = true) ∧
    (hasBit (init c f) c.ParseComments ↔ f.parseComments = true) ∧
    (hasBit (init c f) c.DeclarationErrors ↔ f.declarationErrors = true) ∧
    (hasBit (init c f) c.AllErrors ↔ f.allErrors = true) := by
  obtain ⟨⟨t, ht⟩, ⟨i, hi⟩, ⟨p, hp⟩, ⟨d, hd⟩, ⟨a, ha⟩, hnd⟩ := hc
  rw [ht, hi, hp, hd, ha] at hnd
  have hti : t ≠ i := by rintro rfl; simp at hnd
  have htp : t ≠ p := by rintro rfl; simp at hnd
  have htd : t ≠ d := by rintro rfl; simp at hnd
  have hta : t ≠ a := by rintro rfl; simp at hnd
  have hip : i ≠ p := by rintro rfl; simp at hnd
  have hid : i ≠ d := by rintro rfl; simp at hnd
  have hia : i ≠ a := by rintro rfl; simp at hnd
  have hpd : p ≠ d := by rintro rfl; simp at hnd
  have hpa : p ≠ a := by rintro rfl; simp at hnd
  have hda : d ≠ a := by rintro rfl; simp at hnd
  rw [ht, hi, hp, hd, ha]
  simp only [hasBit_two_pow, init_testBit, ht, hi, hp, hd, ha, Nat.testBit_two_pow]
  simp [hti, htp, htd, hta, hip, hid, hia, hpd, hpa, hda, hti.symm, htp.symm, htd.symm,
    hta.symm, hip.symm, hid.symm, hia.symm, hpd.symm, hpa.symm, hda.symm]

/-- C1: for every combination of the four flags the mode computed by `init` contains
the `parser.Trace` constant: masking it with `Trace` gives back `Trace`; with the
`go/parser` values this is bit 3 (value 8), which is set. -/
theorem init_trace_bit_always_set (c : ParserModes) (f : Flags) :
    init c f &&& c.Trace = c.Trace ∧ hasBit (init goParserModes f) goParserModes.Trace := by
  refine ⟨?_, (init_hasBit goParserModes goParserModes_independent f).1⟩
  apply Nat.eq_of_testBit_eq
  intro i
  rw [Nat.testBit_and, init_testBit]
  cases c.Trace.testBit i <;> simp


/-! ## The runs of `main`, case by case -/

theorem run_main_nil {Ast : Type} (w : World Ast) (mode : Mode) :
    (main w mode []).run = afterParse w [] "-" Reader.stdin mode := by
  simp only [main, Proc.run, afterParse, bind, Proc.bind, pure, Proc.pure, parserParseFile,
    logFatal, List.length_nil, if_true]
  cases h : (w.parseFile token.NewFileSet "-" Reader.stdin mode).err <;>
    simp [h, Proc.pure, logFatal]

theorem run_main_one_ok {Ast : Type} (w : World Ast) (mode : Mode) (name : String)
    (f : Handle) (h : w.osOpen name = OpenResult.ok f) :
    (main w mode [name]).run =
      afterParse w [Event.osOpen name (OpenResult.ok f)] name (Reader.file f) mode := by
  simp only [main, Proc.run, afterParse, bind, pure, List.length_singleton]
  cases h2 : (w.parseFile token.NewFileSet name (Reader.file f) mode).err <;>
    simp [h, h2, Proc.bind, Proc.pure, parserParseFile, logFatal, osOpen]

theorem run_main_one_err {Ast : Type} (w : World Ast) (mode : Mode) (name : String)
    (e : Error) (h : w.osOpen name = OpenResult.err e) :
    (main w mode [name]).run =
      ⟨[Event.osOpen name (OpenResult.err e), Event.logFatal e], 1⟩ := by
  simp [main, Proc.run, bind, Proc.bind, pure, Proc.pure, logFatal, osOpen, h]

theorem run_main_many {Ast : Type} (w : World Ast) (mode : Mode) (fargs : List String)
    (h : 2 ≤ fargs.length) :
    (main w mode fargs).run =
      ⟨[Event.printf ("usage: " ++ w.pathBase w.arg0 ++ " [-h] [options] [file]\n")], 2⟩ := by
  have h0 : ¬ fargs.length = 0 := by omega
  have h1 : ¬ fargs.length = 1 := by omega
  simp [main, Proc.run, bind, Proc.bind, fmtPrintf, osExit, h0, h1]

/-! ## The mode computed by `init` -/

/-- C2: when the five constants occupy distinct single bits (as they do in `go/parser`),
the mode computed by `init` is `Trace` OR-ed with the constants of the flags that are
true; the `Trace` bit is set, each of the four flag bits is set exactly when its flag is
true, no bit outside the five constants is set, and with every flag at its default the
mode is exactly `Trace`. -/
theorem init_mode_exact (c : ParserModes) (hc : c.Independent) (f : Flags) :
    init c f = c.Trace ||| (if f.importsOnly then c.ImportsOnly else 0)
        ||| (if f.parseComments then c.ParseComments else 0)
        ||| (if f.declarationErrors then c.DeclarationErrors else 0)
        ||| (if f.allErrors then c.AllErrors else 0) ∧
    hasBit (init c f) c.Trace ∧
    (hasBit (init c f) c.ImportsOnly ↔ f.importsOnly = true) ∧
    (hasBit (init c f) c.ParseComments ↔ f.parseComments = true) ∧
    (hasBit (init c f) c.DeclarationErrors ↔ f.declarationErrors = true) ∧
    (hasBit (init c f) c.AllErrors ↔ f.allErrors = true) ∧
    (∀ i : Nat, (init c f).testBit i = true → c.allBits.testBit i = true) ∧
    init c {} = c.Trace := by
  obtain ⟨h1, h2, h3, h4, h5⟩ := init_hasBit c hc f
  refine ⟨init_eq_or c f, h1, h2, h3, h4, h5, ?_, rfl⟩
  intro i hi
  rw [init_testBit] at hi
  simp only [ParserModes.allBits, Nat.testBit_or]
  revert hi
  cases c.Trace.testBit i <;> cases c.ImportsOnly.testBit i <;>
    cases c.ParseComments.testBit i <;> cases c.DeclarationErrors.testBit i <;>
    cases c.AllErrors.testBit i <;> simp

/-- Witness for C2 at the `go/parser` constants, with `-imports-only` and `-all-errors`
given: the mode is `8 ||| 2 ||| 32 = 42`. -/
theorem init_mode_exact_witness :
    goParserModes.Independent ∧
    init goParserModes ⟨true, false, false, true⟩ = 42 ∧
    (hasBit (init goParserModes ⟨true, false, false, true⟩) goParserModes.ParseComments ↔
      false = true) ∧
    init goParserModes {} = 8 :=
  have h := init_mode_exact goParserModes goParserModes_independent ⟨true, false, false, true⟩
  ⟨goParserModes_independent, h.1, h.2.2.2.1, h.2.2.2.2.2.2.2⟩

/-- C10: when the five constants occupy distinct single bits, two distinct flag
combinations never give the same mode, and every flag is read back from the mode by
testing its bit. -/
theorem init_injective (c : ParserModes) (hc : c.Independent) :
    (∀ f g : Flags, f ≠ g → init c f ≠ init c g) ∧
    (∀ f : Flags, f = ⟨decide (hasBit (init c f) c.ImportsOnly),
      decide (hasBit (init c f) c.ParseComments),
      decide (hasBit (init c f) c.DeclarationErrors),
      decide (hasBit (init c f) c.AllErrors)⟩) := by
  have back : ∀ f : Flags, f = ⟨decide (hasBit (init c f) c.ImportsOnly),
      decide (hasBit (init c f) c.ParseComments),
      decide (hasBit (init c f) c.DeclarationErrors),
      decide (hasBit (init c f) c.AllErrors)⟩ := by
    intro f
    obtain ⟨_, h2, h3, h4, h5⟩ := init_hasBit c hc f
    rcases f with ⟨a, b, d, e⟩
    simp only [Flags.mk.injEq]
    simp only at h2 h3 h4 h5
    refine ⟨?_, ?_, ?_, ?_⟩
    · cases a <;> simp_all
    · cases b <;> simp_all
    · cases d <;> simp_all
    · cases e <;> simp_all
  refine ⟨?_, back⟩
  intro f g hne heq
  apply hne
  rw [back f, back g, heq]

/-- Witness for C10 at the `go/parser` constants: `-imports-only` alone and
`-parse-comments` alone give different modes. -/
theorem init_injective_witness :
    goParserModes.Independent ∧
    init goParserModes ⟨true, false, false, false⟩ ≠
      init goParserModes ⟨false, true, false, false⟩ :=
  ⟨goParserModes_independent,
    (init_injective goParserModes goParserModes_independent).1 _ _ (by decide)⟩

/-! ## The runs of the program -/

/-- C3: with two or more positional arguments the program writes exactly the synopsis
`usage: <path.Base(os.Args[0])> [-h] [options] [file]` and a newline to standard
output, exits with status 2, calls `os.Open` on nothing and never calls
`parser.ParseFile`. -/
theorem usage_on_two_or_more_args {Ast : Type} (c : ParserModes) (w : World Ast)
    (f : Flags) (fargs : List String) (h : 2 ≤ fargs.length) :
    stdoutOf (goparse c w f fargs).log =
      "usage: " ++ w.pathBase w.arg0 ++ " [-h] [options] [file]\n" ∧
    (goparse c w f fargs).status = 2 ∧
    opened (goparse c w f fargs).log = [] ∧
    parseCalls (goparse c w f fargs).log = [] := by
  simp [goparse, run_main_many w (init c f) fargs h, stdoutOf, opened, parseCalls]

/-- Witness for C3: `goparse a.go b.go`, started as `/usr/local/bin/goparse`. -/
theorem usage_on_two_or_more_args_witness :
    2 ≤ ["a.go", "b.go"].length ∧
    stdoutOf (goparse goParserModes sampleWorld {} ["a.go", "b.go"]).log =
      "usage: " ++ sampleWorld.pathBase sampleWorld.arg0 ++ " [-h] [options] [file]\n" ∧
    (goparse goParserModes sampleWorld {} ["a.go", "b.go"]).status = 2 ∧
    opened (goparse goParserModes sampleWorld {} ["a.go", "b.go"]).log = [] ∧
    parseCalls (goparse goParserModes sampleWorld {} ["a.go", "b.go"]).log = [] ∧
    stdoutOf (goparse goParserModes sampleWorld {} ["a.go", "b.go"]).log =
      "usage: goparse [-h] [options] [file]\n" :=
  have h := usage_on_two_or_more_args goParserModes sampleWorld {} ["a.go", "b.go"]
    (by decide)
  ⟨by decide, h.1, h.2.1, h.2.2.1, h.2.2.2, by decide⟩

/-- C4: with no positional argument the program calls `parser.ParseFile` with the
display name `-`, standard input as the source and the mode computed by `init`, and
calls `os.Open` on nothing. -/
theorem stdin_when_no_args {Ast : Type} (c : ParserModes) (w : World Ast) (f : Flags) :
    parseCalls (goparse c w f []).log =
      [⟨token.NewFileSet, "-", Reader.stdin, init c f⟩] ∧
    opened (goparse c w f []).log = [] := by
  simp only [goparse, run_main_nil, afterParse]
  cases (w.parseFile token.NewFileSet "-" Reader.stdin (init c f)).err <;>
    simp [parseCalls, opened]

/-- C5: with one positional argument whose `os.Open` fails, the program exits with a
non-zero status (1, from `log.Fatal`), never calls `parser.ParseFile`, and nothing is
written to standard output. -/
theorem open_failure_is_fatal {Ast : Type} (c : ParserModes) (w : World Ast) (f : Flags)
    (name : String) (e : Error) (h : w.osOpen name = OpenResult.err e) :
    (goparse c w f [name]).status ≠ 0 ∧
    (goparse c w f [name]).status = 1 ∧
    parseCalls (goparse c w f [name]).log = [] ∧
    stdoutOf (goparse c w f [name]).log = "" := by
  simp [goparse, run_main_one_err w (init c f) name e h, parseCalls, stdoutOf]

/-- Witness for C5: `goparse missing.go`, a file that does not exist. -/
theorem open_failure_is_fatal_witness :
    sampleWorld.osOpen "missing.go" =
      OpenResult.err "open missing.go: no such file or directory" ∧
    (goparse goParserModes sampleWorld {} ["missing.go"]).status ≠ 0 ∧
    (goparse goParserModes sampleWorld {} ["missing.go"]).status = 1 ∧
    parseCalls (goparse goParserModes sampleWorld {} ["missing.go"]).log = [] ∧
    stdoutOf (goparse goParserModes sampleWorld {} ["missing.go"]).log = "" :=
  ⟨by decide, open_failure_is_fatal goParserModes sampleWorld {} "missing.go"
    "open missing.go: no such file or directory" (by decide)⟩

/-- C6: in every run that reaches the delegated call (no positional argument, or one
whose `os.Open` succeeds) `parser.ParseFile` is called exactly once, the exit status is
0 exactly when the returned error is nil, and a non-nil error gives a non-zero status
whatever tree is returned with it. -/
theorem exit_status_follows_parse_error {Ast : Type} (c : ParserModes) (w : World Ast)
    (f : Flags) (fargs : List String)
    (h : fargs = [] ∨ ∃ name file, fargs = [name] ∧ w.osOpen name = OpenResult.ok file) :
    (parseCalls (goparse c w f fargs).log).length = 1 ∧
    ∃ res : ParseResult Ast, parseResults (goparse c w f fargs).log = [res] ∧
      ((goparse c w f fargs).status = 0 ↔ res.err = none) ∧
      (∀ e : Error, res.err = some e → (goparse c w f fargs).status ≠ 0) := by
  rcases h with rfl | ⟨name, file, rfl, hopen⟩
  · simp only [goparse, run_main_nil, afterParse]
    cases hr : (w.parseFile token.NewFileSet "-" Reader.stdin (init c f)).err <;>
      simp [parseCalls, parseResults, hr]
  · simp only [goparse, run_main_one_ok w (init c f) name file hopen, afterParse]
    cases hr : (w.parseFile token.NewFileSet name (Reader.file file) (init c f)).err <;>
      simp [parseCalls, parseResults, hr]

/-- Witness for C6: `goparse -` in the sample environment, where the parser returns a
partial tree together with an error and the status is 1, while `goparse a.go` parses
without error and ends with status 0. -/
theorem exit_status_follows_parse_error_witness :
    (["-"] = [] ∨ ∃ name file, ["-"] = [name] ∧ sampleWorld.osOpen name = OpenResult.ok file) ∧
    ((parseCalls (goparse goParserModes sampleWorld {} ["-"]).log).length = 1 ∧
    ∃ res : ParseResult String,
      parseResults (goparse goParserModes sampleWorld {} ["-"]).log = [res] ∧
      ((goparse goParserModes sampleWorld {} ["-"]).status = 0 ↔ res.err = none) ∧
      (∀ e : Error, res.err = some e →
        (goparse goParserModes sampleWorld {} ["-"]).status ≠ 0)) ∧
    (goparse goParserModes sampleWorld {} ["-"]).status = 1 ∧
    (goparse goParserModes sampleWorld {} ["a.go"]).status = 0 :=
  ⟨Or.inr ⟨"-", 4, rfl, by decide⟩,
    exit_status_follows_parse_error goParserModes sampleWorld {} ["-"]
      (Or.inr ⟨"-", 4, rfl, by decide⟩), by decide, by decide⟩

/-- Whatever the positional arguments, every `parser.ParseFile` call of a run is made
with the mode computed by `init`. -/
theorem parseCalls_mode {Ast : Type} (c : ParserModes) (w : World Ast) (f : Flags)
    (fargs : List String) :
    ∀ call ∈ parseCalls (goparse c w f fargs).log, call.mode = init c f := by
  match fargs with
  | [] =>
    simp only [goparse, run_main_nil, afterParse]
    cases (w.parseFile token.NewFileSet "-" Reader.stdin (init c f)).err <;>
      simp [parseCalls]
  | [name] =>
    cases hopen : w.osOpen name with
    | ok file =>
      simp only [goparse, run_main_one_ok w (init c f) name file hopen, afterParse]
      cases (w.parseFile token.NewFileSet name (Reader.file file) (init c f)).err <;>
        simp [parseCalls]
    | err e => simp [goparse, run_main_one_err w (init c f) name e hopen, parseCalls]
  | a :: b :: rest =>
    simp [goparse, run_main_many w (init c f) (a :: b :: rest) (by simp), parseCalls]

/-- C7 fails as stated.  For `goparse -` in the sample environment (where a file named
`-` exists) the one `parser.ParseFile` call does not have standard input as its source,
and `os.Open` was called.  In the environment without any file, `os.Open("-")` is
called all the same, no `parser.ParseFile` call is made at all and the status is 1. -/
theorem dash_argument_counterexample :
    ¬ (∀ call ∈ parseCalls (goparse goParserModes sampleWorld {} ["-"]).log,
        call.src = Reader.stdin) ∧
    ¬ (opened (goparse goParserModes sampleWorld {} ["-"]).log = []) ∧
    parseCalls (goparse goParserModes sampleWorld {} ["-"]).log =
      [⟨token.NewFileSet, "-", Reader.file 4, 8⟩] ∧
    ¬ (opened (goparse goParserModes emptyDirWorld {} ["-"]).log = []) ∧
    parseCalls (goparse goParserModes emptyDirWorld {} ["-"]).log = [] ∧
    (goparse goParserModes emptyDirWorld {} ["-"]).status = 1 := by
  decide

/-- C7, amended: when the single positional argument is `-`, the program treats it as a
path like any other.  In every environment it calls `os.Open("-")`, exactly once, and
no `parser.ParseFile` call has standard input as its source.  When the open succeeds,
the one `parser.ParseFile` call has display name `-`, the opened file as its source and
the mode computed by `init`; when the open fails, `parser.ParseFile` is not called and
the exit status is 1. -/
theorem dash_argument_opens_file {Ast : Type} (c : ParserModes) (w : World Ast) (f : Flags) :
    opened (goparse c w f ["-"]).log = ["-"] ∧
    (∀ call ∈ parseCalls (goparse c w f ["-"]).log, call.src ≠ Reader.stdin) ∧
    (∀ file : Handle, w.osOpen "-" = OpenResult.ok file →
      parseCalls (goparse c w f ["-"]).log =
        [⟨token.NewFileSet, "-", Reader.file file, init c f⟩]) ∧
    (∀ e : Error, w.osOpen "-" = OpenResult.err e →
      parseCalls (goparse c w f ["-"]).log = [] ∧ (goparse c w f ["-"]).status = 1) := by
  cases hopen : w.osOpen "-" with
  | ok file =>
    simp only [goparse, run_main_one_ok w (init c f) "-" file hopen, afterParse]
    cases (w.parseFile token.NewFileSet "-" (Reader.file file) (init c f)).err <;>
      simp [parseCalls, opened]
  | err e =>
    simp [goparse, run_main_one_err w (init c f) "-" e hopen, parseCalls, opened]

/-- Witness for the amended C7: `goparse -` in the sample environment, where the file
`-` exists, and in the environment without any file. -/
theorem dash_argument_opens_file_witness :
    (sampleWorld.osOpen "-" = OpenResult.ok 4 ∧
      opened (goparse goParserModes sampleWorld {} ["-"]).log = ["-"] ∧
      parseCalls (goparse goParserModes sampleWorld {} ["-"]).log =
        [⟨token.NewFileSet, "-", Reader.file 4, init goParserModes {}⟩]) ∧
    (emptyDirWorld.osOpen "-" = OpenResult.err "open -: no such file or directory" ∧
      opened (goparse goParserModes emptyDirWorld {} ["-"]).log = ["-"] ∧
      parseCalls (goparse goParserModes emptyDirWorld {} ["-"]).log = [] ∧
      (goparse goParserModes emptyDirWorld {} ["-"]).status = 1) :=
  have h1 := dash_argument_opens_file goParserModes sampleWorld {}
  have h2 := dash_argument_opens_file goParserModes emptyDirWorld {}
  ⟨⟨by decide, h1.1, h1.2.2.1 4 (by decide)⟩,
    ⟨by decide, h2.1, h2.2.2.2 "open -: no such file or directory" (by decide)⟩⟩

/-- C8 fails as stated: in the sample environment neither `goparse a.go` (the parse
succeeds, status 0) nor `goparse -` (the parse fails, status 1) closes the file it
opened; the file is still open when the process terminates. -/
theorem file_close_counterexample :
    (goparse goParserModes sampleWorld {} ["a.go"]).status = 0 ∧
    3 ∉ closed (goparse goParserModes sampleWorld {} ["a.go"]).log ∧
    3 ∈ openFiles (goparse goParserModes sampleWorld {} ["a.go"]).log [] ∧
    (goparse goParserModes sampleWorld {} ["-"]).status = 1 ∧
    4 ∉ closed (goparse goParserModes sampleWorld {} ["-"]).log ∧
    4 ∈ openFiles (goparse goParserModes sampleWorld {} ["-"]).log [] := by
  decide

/-- C8, amended: when a path argument is given and the file is opened, the program
never closes it: on every exit path (parse success and parse failure alike) no `Close`
is performed and the opened file is still open when the process terminates. -/
theorem file_never_closed {Ast : Type} (c : ParserModes) (w : World Ast) (f : Flags)
    (name : String) (file : Handle) (h : w.osOpen name = OpenResult.ok file) :
    closed (goparse c w f [name]).log = [] ∧
    openFiles (goparse c w f [name]).log [] = [file] := by
  simp only [goparse, run_main_one_ok w (init c f) name file h, afterParse]
  cases (w.parseFile token.NewFileSet name (Reader.file file) (init c f)).err <;>
    simp [closed, openFiles]

/-- Witness for the amended C8: `goparse a.go` in the sample environment. -/
theorem file_never_closed_witness :
    sampleWorld.osOpen "a.go" = OpenResult.ok 3 ∧
    closed (goparse goParserModes sampleWorld {} ["a.go"]).log = [] ∧
    openFiles (goparse goParserModes sampleWorld {} ["a.go"]).log [] = [3] :=
  ⟨by decide, file_never_closed goParserModes sampleWorld {} "a.go" 3 (by decide)⟩

/-- C9: for every flag setting and every path whose `os.Open` succeeds, the
`parser.ParseFile` call of the run on that path and the call of the run without
positional arguments have the same file set and the same mode, the one computed by
`init` (as has every call of every run, whatever the positional arguments); they differ
in the display name (the path instead of `-`) and the source (the opened file instead of
standard input).  When the parser returns an error in both runs or in neither, both
runs exit with the same status. -/
theorem file_run_matches_stdin_run {Ast : Type} (c : ParserModes) (w : World Ast)
    (f : Flags) (name : String) (file : Handle) (h : w.osOpen name = OpenResult.ok file) :
    parseCalls (goparse c w f [name]).log =
      [⟨token.NewFileSet, name, Reader.file file, init c f⟩] ∧
    parseCalls (goparse c w f []).log =
      [⟨token.NewFileSet, "-", Reader.stdin, init c f⟩] ∧
    (∀ fargs : List String, ∀ call ∈ parseCalls (goparse c w f fargs).log,
      call.mode = init c f) ∧
    ((w.parseFile token.NewFileSet name (Reader.file file) (init c f)).err.isSome =
        (w.parseFile token.NewFileSet "-" Reader.stdin (init c f)).err.isSome →
      (goparse c w f [name]).status = (goparse c w f []).status) := by
  refine ⟨?_, ?_, parseCalls_mode c w f, ?_⟩
  · simp only [goparse, run_main_one_ok w (init c f) name file h, afterParse]
    cases (w.parseFile token.NewFileSet name (Reader.file file) (init c f)).err <;>
      simp [parseCalls]
  · simp only [goparse, run_main_nil, afterParse]
    cases (w.parseFile token.NewFileSet "-" Reader.stdin (init c f)).err <;>
      simp [parseCalls]
  · simp only [goparse, run_main_one_ok w (init c f) name file h, run_main_nil, afterParse]
    cases (w.parseFile token.NewFileSet name (Reader.file file) (init c f)).err <;>
      cases (w.parseFile token.NewFileSet "-" Reader.stdin (init c f)).err <;> simp

/-- Witness for C9: `goparse -parse-comments a.go` against `goparse -parse-comments`
in the sample environment; the parser accepts both inputs. -/
theorem file_run_matches_stdin_run_witness :
    sampleWorld.osOpen "a.go" = OpenResult.ok 3 ∧
    parseCalls (goparse goParserModes sampleWorld ⟨false, true, false, false⟩ ["a.go"]).log =
      [⟨token.NewFileSet, "a.go", Reader.file 3, 12⟩] ∧
    parseCalls (goparse goParserModes sampleWorld ⟨false, true, false, false⟩ []).log =
      [⟨token.NewFileSet, "-", Reader.stdin, 12⟩] ∧
    (goparse goParserModes sampleWorld ⟨false, true, false, false⟩ ["a.go"]).status =
      (goparse goParserModes sampleWorld ⟨false, true, false, false⟩ []).status :=
  have h := file_run_matches_stdin_run goParserModes sampleWorld ⟨false, true, false, false⟩
    "a.go" 3 (by decide)
  ⟨by decide, h.1, h.2.1, h.2.2.2 (by decide)⟩

end Goparse
